import Mathlib

/-!
Verification of the streaming archive iterator (src/src/iterator.rs).

The decoding engine (libarchive) is an external collaborator reached only
through its pull-based FFI surface. We embed it as an abstract structure
`Engine sigma` of state-passing operations, one field per FFI entry point the
iterator uses. The iterator's own control state (the three booleans
`in_file`, `closed`, `error`) and the transition logic of `next`, `free` and
`from_read` are translated directly from the Rust source.
-/

set_option linter.unusedVariables false

/-- Modelled from the spec: the error type of the crate (src/error.rs is not
part of the given sources). Section 7 of the spec gives the taxonomy: a
null/invalid-session error, an engine decode error carrying the engine's
diagnostic string, and a source I/O error carrying an OS code and message. -/
inductive Error where
  | NullArchive : Error
  | Engine : String → Error
  | Io : Int → String → Error
  deriving DecidableEq, Repr

/-- The event type yielded by the iterator (enum ArchiveContents in the
source): start of an entry with its pathname, a chunk of decoded data, the
end of the open entry, or a terminal error. -/
inductive ArchiveContents where
  | StartOfEntry : String → ArchiveContents
  | DataChunk : List Nat → ArchiveContents
  | EndOfEntry : ArchiveContents
  | Err : Error → ArchiveContents
  deriving DecidableEq, Repr

/-- Result of the engine's archive_read_next_header call: end of archive,
a new entry (with its pathname, already decoded lossily at the FFI
boundary by to_string_lossy), or an engine error. -/
inductive HeaderResult where
  | eof : HeaderResult
  | ok : String → HeaderResult
  | err : Error → HeaderResult
  deriving DecidableEq, Repr

/-- Result of the engine's archive_read_data_block call: end of the entry's
data, a data block (the size bytes at the engine-provided buffer), or an
engine error. -/
inductive DataResult where
  | eof : DataResult
  | ok : List Nat → DataResult
  | err : Error → DataResult
  deriving DecidableEq, Repr

/-- The engine operations the iterator invokes, used as ghost trace labels
by the `traced` instrumentation. -/
inductive EngOp where
  | op_read_new : EngOp
  | op_support_filter_all : EngOp
  | op_support_format_all : EngOp
  | op_set_seek_callback : EngOp
  | op_read_open : EngOp
  | op_next_header : EngOp
  | op_data_block : EngOp
  | op_read_close : EngOp
  | op_read_free : EngOp
  deriving DecidableEq, Repr

/-- An abstract decoding engine with state type `sigma`: one state-passing
operation per FFI entry point used by iterator.rs. `archive_read_new`
returns whether the produced session handle is null. -/
structure Engine (σ : Type) where
  archive_read_new : σ → Bool × σ
  archive_read_support_filter_all : σ → Except Error Unit × σ
  archive_read_support_format_all : σ → Except Error Unit × σ
  archive_read_set_seek_callback : σ → Except Error Unit × σ
  archive_read_open : σ → Except Error Unit × σ
  archive_read_next_header : σ → HeaderResult × σ
  archive_read_data_block : σ → DataResult × σ
  archive_read_close : σ → Except Error Unit × σ
  archive_read_free : σ → Except Error Unit × σ

/-- The iterator's state: the three control booleans of struct
ArchiveIterator (in_file, closed, error) plus the engine's state standing
for everything behind the archive_reader handle. -/
structure IterState (σ : Type) where
  in_file : Bool
  closed : Bool
  error : Bool
  engine : σ
  deriving DecidableEq, Repr

/-- Vec::with_capacity + Write::write_all for Vec, used by next_data_chunk
to copy the engine's block into caller-owned storage. The Write
implementation for Vec never fails; the Rust code still matches on the
result, which we mirror with an Except. -/
def write_all (target : List Nat) (content : List Nat) : Except Error (List Nat) :=
  Except.ok (target ++ content)

/-- ArchiveIterator::next_header: one archive_read_next_header pull,
translated case by case (EOF becomes the EndOfEntry marker, OK yields
StartOfEntry with the lossily decoded pathname, anything else an Err). -/
def next_header {σ : Type} (E : Engine σ) (g : σ) : ArchiveContents × σ :=
  match E.archive_read_next_header g with
  | (HeaderResult.eof, g') => (ArchiveContents.EndOfEntry, g')
  | (HeaderResult.ok name, g') => (ArchiveContents.StartOfEntry name, g')
  | (HeaderResult.err e, g') => (ArchiveContents.Err e, g')

/-- ArchiveIterator::next_data_chunk: one archive_read_data_block pull; on
OK the engine-reported block is copied via write_all into a fresh vector. -/
def next_data_chunk {σ : Type} (E : Engine σ) (g : σ) : ArchiveContents × σ :=
  match E.archive_read_data_block g with
  | (DataResult.eof, g') => (ArchiveContents.EndOfEntry, g')
  | (DataResult.ok content, g') =>
      match write_all [] content with
      | Except.error e => (ArchiveContents.Err e, g')
      | Except.ok target => (ArchiveContents.DataChunk target, g')
  | (DataResult.err e, g') => (ArchiveContents.Err e, g')

/-- Iterator::next for ArchiveIterator: early return on the error flag,
then one pull (data chunk when in_file, header otherwise), then the match
that updates in_file and error and decides what to emit. -/
def next {σ : Type} (E : Engine σ) (s : IterState σ) : Option ArchiveContents × IterState σ :=
  if s.error then (none, s)
  else
    match (if s.in_file then next_data_chunk E s.engine else next_header E s.engine) with
    | (ArchiveContents.StartOfEntry name, g') =>
        (some (ArchiveContents.StartOfEntry name), { s with in_file := true, engine := g' })
    | (ArchiveContents.DataChunk v, g') =>
        (some (ArchiveContents.DataChunk v), { s with engine := g' })
    | (ArchiveContents.EndOfEntry, g') =>
        if s.in_file then (some ArchiveContents.EndOfEntry, { s with in_file := false, engine := g' })
        else (none, { s with engine := g' })
    | (ArchiveContents.Err e, g') =>
        (some (ArchiveContents.Err e), { s with error := true, engine := g' })

/-- The event produced by one next() call. -/
def nextOut {σ : Type} (E : Engine σ) (s : IterState σ) : Option ArchiveContents :=
  (next E s).1

/-- The iterator state after one next() call. -/
def nextState {σ : Type} (E : Engine σ) (s : IterState σ) : IterState σ :=
  (next E s).2

/-- The iterator state after n next() calls. -/
def steps {σ : Type} (E : Engine σ) (s : IterState σ) : Nat → IterState σ
  | 0 => s
  | n + 1 => nextState E (steps E s n)

/-- The list of events emitted by the first n next() calls (None results
contribute nothing). -/
def emitted {σ : Type} (E : Engine σ) (s : IterState σ) : Nat → List ArchiveContents
  | 0 => []
  | n + 1 => emitted E s n ++ (nextOut E (steps E s n)).toList

/-- ArchiveIterator::free: a no-op once closed; otherwise set closed, ask
the engine to close the stream and, only if that succeeded (the ? operator
short-circuits), ask it to free the session. -/
def free {σ : Type} (E : Engine σ) (s : IterState σ) : Except Error Unit × IterState σ :=
  if s.closed then (Except.ok (), s)
  else
    match E.archive_read_close s.engine with
    | (Except.error e, g') =>
        (Except.error e, { s with closed := true, engine := g' })
    | (Except.ok _, g') =>
        match E.archive_read_free g' with
        | (Except.error e, g'') => (Except.error e, { s with closed := true, engine := g'' })
        | (Except.ok _, g'') => (Except.ok (), { s with closed := true, engine := g'' })

/-- ArchiveIterator::close: consumes the iterator and runs free,
reporting its result. -/
def close {σ : Type} (E : Engine σ) (s : IterState σ) : Except Error Unit × IterState σ :=
  free E s

/-- Drop for ArchiveIterator: runs free and discards its result. -/
def dropIter {σ : Type} (E : Engine σ) (s : IterState σ) : IterState σ :=
  (free E s).2

/-- The closure inside from_read: enable all filters, enable all formats,
register the seek callback, check the session handle for null, open the
stream; the ? operator stops at the first failure. `isNull` is what
archive_read_new reported. -/
def construct {σ : Type} (E : Engine σ) (isNull : Bool) (g : σ) : Except Error Unit × σ :=
  match E.archive_read_support_filter_all g with
  | (Except.error e, g1) => (Except.error e, g1)
  | (Except.ok _, g1) =>
    match E.archive_read_support_format_all g1 with
    | (Except.error e, g2) => (Except.error e, g2)
    | (Except.ok _, g2) =>
      match E.archive_read_set_seek_callback g2 with
      | (Except.error e, g3) => (Except.error e, g3)
      | (Except.ok _, g3) =>
        if isNull then (Except.error Error.NullArchive, g3)
        else
          match E.archive_read_open g3 with
          | (Except.error e, g4) => (Except.error e, g4)
          | (Except.ok _, g4) => (Except.ok (), g4)

/-- ArchiveIterator::from_read: create a session, run the construction
closure, build the iterator struct, and either return it (closure
succeeded) or propagate the closure's error — in which case the local
iterator value is dropped, which runs free on it. The second component is
the final engine state (inside the iterator on success, after the
drop-triggered cleanup on failure). -/
def from_read {σ : Type} (E : Engine σ) (g0 : σ) : Except Error (IterState σ) × σ :=
  match E.archive_read_new g0 with
  | (isNull, g1) =>
    match construct E isNull g1 with
    | (Except.error e, g2) =>
        (Except.error e,
          (free E { in_file := false, closed := false, error := false, engine := g2 }).2.engine)
    | (Except.ok _, g2) =>
        (Except.ok { in_file := false, closed := false, error := false, engine := g2 }, g2)

/-- Ghost instrumentation: the same engine, with each operation also
appending its label to a trace carried in the state. Nothing about the
iterator changes; the trace only records which engine entry points were
invoked and in what order. -/
def traced {σ : Type} (E : Engine σ) : Engine (σ × List EngOp) where
  archive_read_new := fun p =>
    ((E.archive_read_new p.1).1, ((E.archive_read_new p.1).2, p.2 ++ [EngOp.op_read_new]))
  archive_read_support_filter_all := fun p =>
    ((E.archive_read_support_filter_all p.1).1,
      ((E.archive_read_support_filter_all p.1).2, p.2 ++ [EngOp.op_support_filter_all]))
  archive_read_support_format_all := fun p =>
    ((E.archive_read_support_format_all p.1).1,
      ((E.archive_read_support_format_all p.1).2, p.2 ++ [EngOp.op_support_format_all]))
  archive_read_set_seek_callback := fun p =>
    ((E.archive_read_set_seek_callback p.1).1,
      ((E.archive_read_set_seek_callback p.1).2, p.2 ++ [EngOp.op_set_seek_callback]))
  archive_read_open := fun p =>
    ((E.archive_read_open p.1).1, ((E.archive_read_open p.1).2, p.2 ++ [EngOp.op_read_open]))
  archive_read_next_header := fun p =>
    ((E.archive_read_next_header p.1).1,
      ((E.archive_read_next_header p.1).2, p.2 ++ [EngOp.op_next_header]))
  archive_read_data_block := fun p =>
    ((E.archive_read_data_block p.1).1,
      ((E.archive_read_data_block p.1).2, p.2 ++ [EngOp.op_data_block]))
  archive_read_close := fun p =>
    ((E.archive_read_close p.1).1, ((E.archive_read_close p.1).2, p.2 ++ [EngOp.op_read_close]))
  archive_read_free := fun p =>
    ((E.archive_read_free p.1).1, ((E.archive_read_free p.1).2, p.2 ++ [EngOp.op_read_free]))

/-- Modelled from the spec: the tuned staging-buffer size constant
(READER_BUFFER_SIZE, declared in the crate root, outside the given source
file); the spec only calls it one tuned constant, and no claim depends on
its exact value. -/
def READER_BUFFER_SIZE : Nat := 1024

/-- Rust std::io::SeekFrom: start takes an unsigned 64-bit offset, the
other two a signed one. -/
inductive SeekFrom where
  | Start : Nat → SeekFrom
  | Current : Int → SeekFrom
  | SeekEnd : Int → SeekFrom
  deriving DecidableEq, Repr

/-- A Rust std::io::Error as the callbacks observe it: raw_os_error where
available, and the Display rendering used for the description. -/
structure IOError where
  raw_os_error : Option Int
  message : String
  deriving DecidableEq, Repr

/-- An abstract caller-supplied byte source (the R: Read + Seek type
parameter), state-passing: read is given the buffer capacity and yields the
bytes it placed at the front of the buffer, seek yields the new position
(a u64) or an I/O error. -/
structure Reader (ρ : Type) where
  read : ρ → Nat → Except IOError (List Nat) × ρ
  seek : ρ → SeekFrom → Except IOError Nat × ρ

/-- struct HeapReadSeekerPipe: the caller's reader plus the fixed staging
buffer handed to the engine. -/
structure HeapReadSeekerPipe (ρ : Type) where
  reader : ρ
  buffer : List Nat
  deriving DecidableEq, Repr

/-- The `offset as u64` cast: two's-complement wrap of an i64 into a u64. -/
def toU64 (i : Int) : Nat :=
  (i % ((2 : Int) ^ 64)).toNat

/-- The `as i64` cast of a u64: values at or above 2^63 wrap to negative. -/
def toI64 (n : Nat) : Int :=
  if (n % 2 ^ 64) < 2 ^ 63 then ((n % 2 ^ 64 : Nat) : Int)
  else ((n % 2 ^ 64 : Nat) : Int) - 2 ^ 64

/-- CString::new: fails (and the source's .unwrap() panics) exactly when
the rendered message contains an interior NUL byte. -/
def cstring_new (s : String) : Option String :=
  if s.toList.contains (Char.ofNat 0) then none else some s

/-- libarchive_heap_seek_callback: map whence codes 0/1/2 onto SeekFrom
(any other code returns -1 at once, without touching the reader), invoke
the source's seek, and return the new position as an i64, or -1 on a
failing seek. -/
def libarchive_heap_seek_callback {ρ : Type} (R : Reader ρ) (p : HeapReadSeekerPipe ρ)
    (offset : Int) (whence : Int) : Int × HeapReadSeekerPipe ρ :=
  match (if whence = 0 then some (SeekFrom.Start (toU64 offset))
         else if whence = 1 then some (SeekFrom.Current offset)
         else if whence = 2 then some (SeekFrom.SeekEnd offset)
         else none) with
  | none => (-1, p)
  | some sf =>
    match R.seek p.reader sf with
    | (Except.ok pos, r') => (toI64 pos, { p with reader := r' })
    | (Except.error _, r') => (-1, { p with reader := r' })

/-- libarchive_heap_seekableread_callback: point the engine at the pipe's
buffer, read from the source into that buffer, and return the byte count;
on a read failure, render the error, record it on the engine's error
channel via archive_set_error (modelled as the third component: OS code
defaulted to 0, plus the description) and return -1. The outer Option
models the .unwrap() panic of CString::new on an interior NUL. -/
def libarchive_heap_seekableread_callback {ρ : Type} (R : Reader ρ)
    (p : HeapReadSeekerPipe ρ) :
    Option (Int × HeapReadSeekerPipe ρ × Option (Int × String)) :=
  match R.read p.reader READER_BUFFER_SIZE with
  | (Except.ok bytes, r') =>
      some (((bytes.length : Nat) : Int),
        { reader := r', buffer := bytes ++ p.buffer.drop bytes.length }, none)
  | (Except.error e, r') =>
      match cstring_new e.message with
      | none => none
      | some descr =>
          some (-1, { p with reader := r' }, some (e.raw_os_error.getD 0, descr))

/-- Scan an event list left to right, tracking whether an entry is open;
`some b` means the list is a valid Err-free framing prefix leaving the
open-entry flag at b, `none` means it breaks framing or contains an Err. -/
def scanResult : Bool → List ArchiveContents → Option Bool
  | b, [] => some b
  | b, ArchiveContents.StartOfEntry _ :: rest => if b then none else scanResult true rest
  | b, ArchiveContents.DataChunk _ :: rest => if b then scanResult b rest else none
  | b, ArchiveContents.EndOfEntry :: rest => if b then scanResult false rest else none
  | _, ArchiveContents.Err _ :: _ => none

/-- A prefix of a well-framed stream: StartOfEntry only with no entry open,
DataChunk and EndOfEntry only with one open, Err only as the final event.
The stream may stop mid-entry (the caller may simply stop pulling). -/
def framedSoFar : Bool → List ArchiveContents → Bool
  | _, [] => true
  | b, ArchiveContents.StartOfEntry _ :: rest => !b && framedSoFar true rest
  | b, ArchiveContents.DataChunk _ :: rest => b && framedSoFar b rest
  | b, ArchiveContents.EndOfEntry :: rest => b && framedSoFar false rest
  | _, ArchiveContents.Err _ :: rest => rest.isEmpty

/-- A complete well-framed stream: a concatenation of zero or more full
(StartOfEntry, DataChunk*, EndOfEntry) groups, optionally cut short by a
single terminal Err. -/
def framedComplete : Bool → List ArchiveContents → Bool
  | b, [] => !b
  | b, ArchiveContents.StartOfEntry _ :: rest => !b && framedComplete true rest
  | b, ArchiveContents.DataChunk _ :: rest => b && framedComplete b rest
  | b, ArchiveContents.EndOfEntry :: rest => b && framedComplete false rest
  | _, ArchiveContents.Err _ :: rest => rest.isEmpty

/-- The DataChunk payloads produced by up to n next() calls, stopping at
the first event that is not a DataChunk (EndOfEntry, Err or exhaustion). -/
def iterChunks {σ : Type} (E : Engine σ) (s : IterState σ) : Nat → List (List Nat)
  | 0 => []
  | n + 1 =>
    match nextOut E s with
    | some (ArchiveContents.DataChunk v) => v :: iterChunks E (nextState E s) n
    | _ => []

/-- The blocks the engine itself reports for the current entry: iterate
archive_read_data_block up to n times, collecting OK blocks and stopping at
eof or an error. Their concatenation is the entry's decoded content as the
engine hands it over. -/
def engineBlocks {σ : Type} (E : Engine σ) (g : σ) : Nat → List (List Nat)
  | 0 => []
  | n + 1 =>
    match E.archive_read_data_block g with
    | (DataResult.ok v, g') => v :: engineBlocks E g' n
    | _ => []

/-- The engine contract at end of archive: once archive_read_next_header
has signalled EOF, it keeps signalling EOF from the resulting state. This
is libarchive's documented behaviour; the iterator itself does not latch
the condition. -/
def EofStable {σ : Type} (E : Engine σ) : Prop :=
  ∀ g g', E.archive_read_next_header g = (HeaderResult.eof, g') →
    (E.archive_read_next_header g').1 = HeaderResult.eof

/-- A trivially well-behaved engine: empty archive, every setup and
teardown call succeeds and leaves the state alone. Used as a base for the
concrete engines of the witnesses. -/
def baseEngine {σ : Type} : Engine σ where
  archive_read_new := fun g => (false, g)
  archive_read_support_filter_all := fun g => (Except.ok (), g)
  archive_read_support_format_all := fun g => (Except.ok (), g)
  archive_read_set_seek_callback := fun g => (Except.ok (), g)
  archive_read_open := fun g => (Except.ok (), g)
  archive_read_next_header := fun g => (HeaderResult.eof, g)
  archive_read_data_block := fun g => (DataResult.eof, g)
  archive_read_close := fun g => (Except.ok (), g)
  archive_read_free := fun g => (Except.ok (), g)

/-- A freshly constructed iterator state over a Nat-state engine. -/
def egIter0 : IterState Nat :=
  { in_file := false, closed := false, error := false, engine := 0 }

/-- A one-entry archive: the header pull at state 0 yields entry a.txt,
later header pulls yield EOF; the data pull at state 1 yields the block
[104, 105], later data pulls yield end of entry. -/
def egArchive : Engine Nat :=
  { baseEngine with
    archive_read_next_header := fun g =>
      (if g = 0 then HeaderResult.ok ("a.txt") else HeaderResult.eof, g + 1)
    archive_read_data_block := fun g =>
      (if g = 1 then DataResult.ok [104, 105] else DataResult.eof, g + 1) }

/-- An engine whose header pull always fails. -/
def egHeaderErr : Engine Nat :=
  { baseEngine with
    archive_read_next_header := fun g => (HeaderResult.err (Error.Engine ("bad header")), g + 1) }

/-- An engine over a pair of invocation counters (close calls, free calls)
whose stream-close step fails. -/
def egCloseFail : Engine (Nat × Nat) where
  archive_read_new := fun g => (false, g)
  archive_read_support_filter_all := fun g => (Except.ok (), g)
  archive_read_support_format_all := fun g => (Except.ok (), g)
  archive_read_set_seek_callback := fun g => (Except.ok (), g)
  archive_read_open := fun g => (Except.ok (), g)
  archive_read_next_header := fun g => (HeaderResult.eof, g)
  archive_read_data_block := fun g => (DataResult.eof, g)
  archive_read_close := fun g => (Except.error (Error.Engine ("close failed")), (g.1 + 1, g.2))
  archive_read_free := fun g => (Except.ok (), (g.1, g.2 + 1))

/-- An engine over (close calls, free calls) counters whose teardown steps
both succeed. -/
def egCounters : Engine (Nat × Nat) where
  archive_read_new := fun g => (false, g)
  archive_read_support_filter_all := fun g => (Except.ok (), g)
  archive_read_support_format_all := fun g => (Except.ok (), g)
  archive_read_set_seek_callback := fun g => (Except.ok (), g)
  archive_read_open := fun g => (Except.ok (), g)
  archive_read_next_header := fun g => (HeaderResult.eof, g)
  archive_read_data_block := fun g => (DataResult.eof, g)
  archive_read_close := fun g => (Except.ok (), (g.1 + 1, g.2))
  archive_read_free := fun g => (Except.ok (), (g.1, g.2 + 1))

/-- A fresh teardown-counter iterator state. -/
def egIterCnt : IterState (Nat × Nat) :=
  { in_file := false, closed := false, error := false, engine := (0, 0) }

/-- An engine whose open step fails (all other steps succeed). -/
def egOpenFail : Engine Nat :=
  { baseEngine with
    archive_read_open := fun g => (Except.error (Error.Engine ("open failed")), g + 1) }

/-- An engine reporting two data blocks for the current entry, then end of
entry. -/
def egData : Engine Nat :=
  { baseEngine with
    archive_read_data_block := fun g =>
      (if g = 0 then DataResult.ok [1, 2, 3] else if g = 1 then DataResult.ok [4, 5]
       else DataResult.eof, g + 1) }

/-- An iterator state that is inside an open entry, over a Nat-state
engine at state 0. -/
def egInEntry : IterState Nat :=
  { in_file := true, closed := false, error := false, engine := 0 }

/-- A concrete byte source over a Nat position: reads always deliver the
two bytes [7, 8], seeks always land at position 3; both bump the state. -/
def egReader : Reader Nat where
  read := fun r _ => (Except.ok [7, 8], r + 1)
  seek := fun r _ => (Except.ok 3, r + 1)

/-- A concrete source whose reads and seeks always fail with OS error 5. -/
def egBadReader : Reader Nat where
  read := fun r _ => (Except.error { raw_os_error := some 5, message := "boom" }, r + 1)
  seek := fun r _ => (Except.error { raw_os_error := some 5, message := "boom" }, r + 1)

/-- A concrete source whose read fails with OS error 9 and a rendered
message carrying an interior NUL byte, the input on which CString::new
in the read callback cannot produce a C string. -/
def egNulReader : Reader Nat where
  read := fun r _ => (Except.error { raw_os_error := some 9, message := "a\x00b" }, r + 1)
  seek := fun r _ => (Except.ok 0, r + 1)

/-- A concrete pipe: reader state 0, a four-byte staging buffer. -/
def egPipe : HeapReadSeekerPipe Nat :=
  { reader := 0, buffer := [9, 9, 9, 9] }

theorem next_of_error {σ : Type} (E : Engine σ) (s : IterState σ) (h : s.error = true) :
    next E s = (none, s) := by
  simp [next, h]

theorem steps_add {σ : Type} (E : Engine σ) (s : IterState σ) (a b : Nat) :
    steps E s (a + b) = steps E (steps E s a) b := by
  induction b with
  | zero => rfl
  | succ b ih => rw [← Nat.add_assoc, steps, steps, ih]

theorem steps_frozen {σ : Type} (E : Engine σ) (s : IterState σ) (h : s.error = true) (k : Nat) :
    steps E s k = s := by
  induction k with
  | zero => rfl
  | succ k ih => rw [steps, ih, nextState, next_of_error E s h]

theorem error_after_err {σ : Type} (E : Engine σ) (s : IterState σ) (e : Error)
    (h : nextOut E s = some (ArchiveContents.Err e)) : (nextState E s).error = true := by
  by_cases he : s.error
  · simp [nextOut, next_of_error E s he] at h
  · simp only [Bool.not_eq_true] at he
    by_cases hin : s.in_file
    · rcases hr : next_data_chunk E s.engine with ⟨ev, g'⟩
      cases ev <;> simp [nextOut, nextState, next, he, hin, hr] at h ⊢
    · simp only [Bool.not_eq_true] at hin
      rcases hr : next_header E s.engine with ⟨ev, g'⟩
      cases ev <;> simp [nextOut, nextState, next, he, hin, hr] at h ⊢

theorem in_file_false_of_none {σ : Type} (E : Engine σ) (s : IterState σ)
    (h : nextOut E s = none) (he : s.error = false) : s.in_file = false := by
  by_cases hin : s.in_file
  · exfalso
    rcases hd : E.archive_read_data_block s.engine with ⟨dr, g'⟩
    cases dr <;>
      simp [nextOut, next, he, hin, next_data_chunk, hd, write_all] at h
  · simpa using hin

theorem eof_of_next_none {σ : Type} (E : Engine σ) (s : IterState σ)
    (h1 : s.in_file = false) (h2 : s.error = false) (h3 : nextOut E s = none) :
    (E.archive_read_next_header s.engine).1 = HeaderResult.eof := by
  rcases hh : E.archive_read_next_header s.engine with ⟨hr, g'⟩
  cases hr with
  | eof => rfl
  | ok name => simp [nextOut, next, h1, h2, next_header, hh] at h3
  | err e => simp [nextOut, next, h1, h2, next_header, hh] at h3

theorem next_none_of_eof {σ : Type} (E : Engine σ) (s : IterState σ)
    (h1 : s.in_file = false) (h2 : s.error = false)
    (h3 : (E.archive_read_next_header s.engine).1 = HeaderResult.eof) :
    next E s = (none, { s with engine := (E.archive_read_next_header s.engine).2 }) := by
  rcases hh : E.archive_read_next_header s.engine with ⟨hr, g'⟩
  rw [hh] at h3
  cases h3
  simp [next, h1, h2, next_header, hh]

theorem free_of_closed {σ : Type} (E : Engine σ) (s : IterState σ) (h : s.closed = true) :
    free E s = (Except.ok (), s) := by
  simp [free, h]

theorem free_sets_closed {σ : Type} (E : Engine σ) (s : IterState σ) :
    (free E s).2.closed = true := by
  by_cases h : s.closed
  · simp [free, h]
  · simp only [Bool.not_eq_true] at h
    rcases hc : E.archive_read_close s.engine with ⟨r, g'⟩
    cases r with
    | error e => simp [free, h, hc]
    | ok u =>
      rcases hf : E.archive_read_free g' with ⟨r', g''⟩
      cases r' <;> simp [free, h, hc, hf]

theorem scanResult_append (xs : List ArchiveContents) :
    ∀ (ys : List ArchiveContents) (b c : Bool), scanResult b xs = some c →
      scanResult b (xs ++ ys) = scanResult c ys := by
  induction xs with
  | nil =>
    intro ys b c h
    simp [scanResult] at h
    subst h
    rfl
  | cons x xs ih =>
    intro ys b c h
    cases x with
    | StartOfEntry name =>
      cases b with
      | false =>
        simp only [scanResult, if_neg Bool.false_ne_true] at h ⊢
        exact ih ys true c h
      | true => simp [scanResult] at h
    | DataChunk v =>
      cases b with
      | false => simp [scanResult] at h
      | true =>
        simp only [scanResult, if_pos rfl] at h ⊢
        exact ih ys true c h
    | EndOfEntry =>
      cases b with
      | false => simp [scanResult] at h
      | true =>
        simp only [scanResult, if_pos rfl] at h ⊢
        exact ih ys false c h
    | Err e => simp [scanResult] at h

theorem framedSoFar_append (xs : List ArchiveContents) :
    ∀ (ys : List ArchiveContents) (b c : Bool), scanResult b xs = some c →
      framedSoFar b (xs ++ ys) = framedSoFar c ys := by
  induction xs with
  | nil =>
    intro ys b c h
    simp [scanResult] at h
    subst h
    rfl
  | cons x xs ih =>
    intro ys b c h
    cases x with
    | StartOfEntry name =>
      cases b with
      | false =>
        simp only [scanResult, if_neg Bool.false_ne_true] at h
        simp only [List.cons_append, framedSoFar, Bool.not_false, Bool.true_and]
        exact ih ys true c h
      | true => simp [scanResult] at h
    | DataChunk v =>
      cases b with
      | false => simp [scanResult] at h
      | true =>
        simp only [scanResult, if_pos rfl] at h
        simp only [List.cons_append, framedSoFar, Bool.true_and]
        exact ih ys true c h
    | EndOfEntry =>
      cases b with
      | false => simp [scanResult] at h
      | true =>
        simp only [scanResult, if_pos rfl] at h
        simp only [List.cons_append, framedSoFar, Bool.true_and]
        exact ih ys false c h
    | Err e => simp [scanResult] at h

theorem framedComplete_append (xs : List ArchiveContents) :
    ∀ (ys : List ArchiveContents) (b c : Bool), scanResult b xs = some c →
      framedComplete b (xs ++ ys) = framedComplete c ys := by
  induction xs with
  | nil =>
    intro ys b c h
    simp [scanResult] at h
    subst h
    rfl
  | cons x xs ih =>
    intro ys b c h
    cases x with
    | StartOfEntry name =>
      cases b with
      | false =>
        simp only [scanResult, if_neg Bool.false_ne_true] at h
        simp only [List.cons_append, framedComplete, Bool.not_false, Bool.true_and]
        exact ih ys true c h
      | true => simp [scanResult] at h
    | DataChunk v =>
      cases b with
      | false => simp [scanResult] at h
      | true =>
        simp only [scanResult, if_pos rfl] at h
        simp only [List.cons_append, framedComplete, Bool.true_and]
        exact ih ys true c h
    | EndOfEntry =>
      cases b with
      | false => simp [scanResult] at h
      | true =>
        simp only [scanResult, if_pos rfl] at h
        simp only [List.cons_append, framedComplete, Bool.true_and]
        exact ih ys false c h
    | Err e => simp [scanResult] at h

theorem framedSoFar_of_scan (xs : List ArchiveContents) (b c : Bool)
    (h : scanResult b xs = some c) : framedSoFar b xs = true := by
  have h2 := framedSoFar_append xs [] b c h
  rw [List.append_nil] at h2
  rw [h2]
  rfl

theorem framing_inv {σ : Type} (E : Engine σ) (s0 : IterState σ)
    (h1 : s0.in_file = false) (h2 : s0.error = false) (n : Nat) :
    ((steps E s0 n).error = false ∧
      scanResult false (emitted E s0 n) = some ((steps E s0 n).in_file)) ∨
    ((steps E s0 n).error = true ∧
      ∃ xs b e, emitted E s0 n = xs ++ [ArchiveContents.Err e] ∧
        scanResult false xs = some b) := by
  induction n with
  | zero =>
    left
    refine ⟨h2, ?_⟩
    simp [steps, emitted, scanResult, h1]
  | succ n ih =>
    rcases ih with ⟨he, hscan⟩ | ⟨he, xs, b, e, hemit, hscan⟩
    · by_cases hin : (steps E s0 n).in_file
      · rw [hin] at hscan
        rcases hd : E.archive_read_data_block (steps E s0 n).engine with ⟨dr, g'⟩
        cases dr with
        | eof =>
          have hnext : next E (steps E s0 n) =
              (some ArchiveContents.EndOfEntry,
                { steps E s0 n with in_file := false, engine := g' }) := by
            simp [next, he, hin, next_data_chunk, hd]
          left
          simp only [steps, emitted, nextState, nextOut, hnext, Option.toList_some]
          refine ⟨he, ?_⟩
          rw [scanResult_append (emitted E s0 n) [ArchiveContents.EndOfEntry] false true hscan]
          rfl
        | ok v =>
          have hnext : next E (steps E s0 n) =
              (some (ArchiveContents.DataChunk v),
                { steps E s0 n with engine := g' }) := by
            simp [next, he, hin, next_data_chunk, hd, write_all]
          left
          simp only [steps, emitted, nextState, nextOut, hnext, Option.toList_some]
          refine ⟨he, ?_⟩
          rw [scanResult_append (emitted E s0 n) [ArchiveContents.DataChunk v] false true hscan]
          simp [scanResult, hin]
        | err e =>
          have hnext : next E (steps E s0 n) =
              (some (ArchiveContents.Err e),
                { steps E s0 n with error := true, engine := g' }) := by
            simp [next, he, hin, next_data_chunk, hd]
          right
          simp only [steps, emitted, nextState, nextOut, hnext, Option.toList_some]
          exact ⟨by trivial, emitted E s0 n, true, e, rfl, hscan⟩
      · simp only [Bool.not_eq_true] at hin
        rw [hin] at hscan
        rcases hh : E.archive_read_next_header (steps E s0 n).engine with ⟨hr, g'⟩
        cases hr with
        | eof =>
          have hnext : next E (steps E s0 n) =
              (none, { steps E s0 n with engine := g' }) := by
            simp [next, he, hin, next_header, hh]
          left
          simp only [steps, emitted, nextState, nextOut, hnext, Option.toList_none,
            List.append_nil]
          refine ⟨he, ?_⟩
          simpa [hin] using hscan
        | ok name =>
          have hnext : next E (steps E s0 n) =
              (some (ArchiveContents.StartOfEntry name),
                { steps E s0 n with in_file := true, engine := g' }) := by
            simp [next, he, hin, next_header, hh]
          left
          simp only [steps, emitted, nextState, nextOut, hnext, Option.toList_some]
          refine ⟨he, ?_⟩
          rw [scanResult_append (emitted E s0 n) [ArchiveContents.StartOfEntry name]
            false false hscan]
          rfl
        | err e =>
          have hnext : next E (steps E s0 n) =
              (some (ArchiveContents.Err e),
                { steps E s0 n with error := true, engine := g' }) := by
            simp [next, he, hin, next_header, hh]
          right
          simp only [steps, emitted, nextState, nextOut, hnext, Option.toList_some]
          exact ⟨by trivial, emitted E s0 n, false, e, rfl, hscan⟩
    · right
      have hnext := next_of_error E (steps E s0 n) he
      simp only [steps, emitted, nextState, nextOut, hnext, Option.toList_none, List.append_nil]
      exact ⟨he, xs, b, e, hemit, hscan⟩

/-- Claim C1: every event sequence produced by repeated next() calls from a
freshly constructed iterator (in_file and error both false) is a prefix of
a concatenation of complete (StartOfEntry, DataChunk*, EndOfEntry) groups
optionally terminated by a single Err — no DataChunk or EndOfEntry is
emitted while no entry is open, every EndOfEntry closes the most recent
StartOfEntry, and nothing follows an Err; moreover, when the iterator has
signalled exhaustion (next() returned None), the emitted sequence is a
complete such concatenation. -/
theorem c1_framing {σ : Type} (E : Engine σ) (s0 : IterState σ)
    (h1 : s0.in_file = false) (h2 : s0.error = false) (n : Nat) :
    framedSoFar false (emitted E s0 n) = true ∧
    (nextOut E (steps E s0 n) = none → framedComplete false (emitted E s0 n) = true) := by
  rcases framing_inv E s0 h1 h2 n with ⟨he, hscan⟩ | ⟨he, xs, b, e, hemit, hscan⟩
  · constructor
    · exact framedSoFar_of_scan _ _ _ hscan
    · intro hnone
      have hin := in_file_false_of_none E (steps E s0 n) hnone he
      rw [hin] at hscan
      have h3 := framedComplete_append (emitted E s0 n) [] false false hscan
      rw [List.append_nil] at h3
      rw [h3]
      rfl
  · constructor
    · rw [hemit, framedSoFar_append xs [ArchiveContents.Err e] false b hscan]
      rfl
    · intro _
      rw [hemit, framedComplete_append xs [ArchiveContents.Err e] false b hscan]
      rfl

theorem c1_framing_witness :
    framedSoFar false (emitted egArchive egIter0 4) = true ∧
    (nextOut egArchive (steps egArchive egIter0 4) = none →
      framedComplete false (emitted egArchive egIter0 4) = true) :=
  c1_framing egArchive egIter0 rfl rfl 4

/-- Claim C2: once a next() call has emitted an Err event (which sets the
error flag), every later next() call returns None and leaves the whole
iterator state — the engine state included — untouched: the early return
on the error flag never reaches the decoding engine. -/
theorem c2_error_latch {σ : Type} (E : Engine σ) (s0 : IterState σ) (n k : Nat) (e : Error)
    (h : nextOut E (steps E s0 n) = some (ArchiveContents.Err e)) :
    nextOut E (steps E s0 (n + 1 + k)) = none ∧
    steps E s0 (n + 1 + k) = steps E s0 (n + 1) := by
  have herr : (steps E s0 (n + 1)).error = true := by
    rw [steps]
    exact error_after_err E (steps E s0 n) e h
  have hfix : steps E s0 (n + 1 + k) = steps E s0 (n + 1) := by
    rw [steps_add E s0 (n + 1) k, steps_frozen E (steps E s0 (n + 1)) herr k]
  refine ⟨?_, hfix⟩
  rw [hfix, nextOut, next_of_error E _ herr]

theorem c2_error_latch_witness :
    nextOut egHeaderErr (steps egHeaderErr egIter0 (0 + 1 + 2)) = none ∧
    steps egHeaderErr egIter0 (0 + 1 + 2) = steps egHeaderErr egIter0 (0 + 1) :=
  c2_error_latch egHeaderErr egIter0 0 2 (Error.Engine ("bad header")) rfl

/-- Claim C3: once the natural end-of-archive condition has been observed
(next() in the header state got the engine's EOF signal and returned
None), every later next() call also yields nothing — provided the engine
honours its end-of-archive contract (EofStable: after signalling EOF it
keeps signalling EOF), since the iterator itself re-queries the engine
rather than latching the condition. -/
theorem c3_eof_exhaustion {σ : Type} (E : Engine σ) (hE : EofStable E) (s : IterState σ)
    (h1 : s.in_file = false) (h2 : s.error = false) (h3 : nextOut E s = none) (n : Nat) :
    nextOut E (steps E s n) = none := by
  have base := eof_of_next_none E s h1 h2 h3
  have main : ∀ m, (steps E s m).in_file = false ∧ (steps E s m).error = false ∧
      (E.archive_read_next_header (steps E s m).engine).1 = HeaderResult.eof := by
    intro m
    induction m with
    | zero => exact ⟨h1, h2, base⟩
    | succ m ih =>
      rcases ih with ⟨i1, i2, i3⟩
      have hn := next_none_of_eof E (steps E s m) i1 i2 i3
      have hstep : steps E s (m + 1) =
          { steps E s m with engine := (E.archive_read_next_header (steps E s m).engine).2 } := by
        rw [steps, nextState, hn]
      refine ⟨?_, ?_, ?_⟩
      · rw [hstep]
        exact i1
      · rw [hstep]
        exact i2
      · rw [hstep]
        have hpair : E.archive_read_next_header (steps E s m).engine =
            (HeaderResult.eof, (E.archive_read_next_header (steps E s m).engine).2) := by
          rw [← i3]
        exact hE _ _ hpair
  rcases main n with ⟨i1, i2, i3⟩
  have hn := next_none_of_eof E (steps E s n) i1 i2 i3
  rw [nextOut, hn]

theorem c3_eof_exhaustion_witness :
    nextOut (baseEngine (σ := Nat)) (steps baseEngine egIter0 5) = none :=
  c3_eof_exhaustion baseEngine (fun g g' h => rfl) egIter0 rfl rfl rfl 5

/-- Claim C4: teardown runs at most once and is idempotent — after free has
run once (whether reached through close() or through drop), the closed flag
is set, and running the teardown step again returns success and leaves the
entire state, the engine state included, unchanged: no further native
close or free calls happen. -/
theorem c4_teardown_idempotent {σ : Type} (E : Engine σ) (s : IterState σ) :
    (free E s).2.closed = true ∧
    free E (free E s).2 = (Except.ok (), (free E s).2) :=
  ⟨free_sets_closed E s, free_of_closed E (free E s).2 (free_sets_closed E s)⟩

/-- Claim C5 counterexample: on an engine whose stream-close step fails,
teardown (free) returns the close error but never reaches the
session-release step — after the call the close-invocation counter is 1
and the free-invocation counter is still 0 — refuting the clause that the
session-release step still runs when the stream-close step fails (the ?
operator in free short-circuits). -/
theorem c5_counterexample :
    (free egCloseFail egIterCnt).1 = Except.error (Error.Engine ("close failed")) ∧
    (free egCloseFail egIterCnt).2.engine = (1, 0) := by
  constructor <;> rfl

/-- Claim C5 (amended): teardown asks the engine to close the stream
first and, only if that step succeeds, asks it to release the session,
threading the engine state in that order; each step's failure is reported
back from an explicit close() call, but when the stream-close step fails
the error is returned at once and the session-release step is skipped.
The closed flag is set either way, so no step runs twice. -/
theorem c5_teardown_order {σ : Type} (E : Engine σ) (s : IterState σ) (h : s.closed = false) :
    (∀ e g', E.archive_read_close s.engine = (Except.error e, g') →
      free E s = (Except.error e, { s with closed := true, engine := g' })) ∧
    (∀ g', E.archive_read_close s.engine = (Except.ok (), g') →
      free E s = ((E.archive_read_free g').1.map (fun _ => ()),
        { s with closed := true, engine := (E.archive_read_free g').2 })) := by
  constructor
  · intro e g' hc
    simp [free, h, hc]
  · intro g' hc
    rcases hf : E.archive_read_free g' with ⟨r, g''⟩
    cases r with
    | error e => simp [free, h, hc, hf, Except.map]
    | ok u => simp [free, h, hc, hf, Except.map]

theorem c5_teardown_order_witness :
    free egCounters egIterCnt =
      ((egCounters.archive_read_free (1, 0)).1.map (fun _ => ()),
        { egIterCnt with closed := true, engine := (egCounters.archive_read_free (1, 0)).2 }) :=
  (c5_teardown_order egCounters egIterCnt rfl).2 (1, 0) rfl

theorem traced_free_trace {σ : Type} (E : Engine σ) (s : IterState (σ × List EngOp))
    (hcl : s.closed = false) (hok : (E.archive_read_close s.engine.1).1 = Except.ok ()) :
    (free (traced E) s).2.engine.2 =
      s.engine.2 ++ [EngOp.op_read_close, EngOp.op_read_free] := by
  rcases hc : E.archive_read_close s.engine.1 with ⟨r, g2⟩
  rw [hc] at hok
  simp only at hok
  subst hok
  have htc : (traced E).archive_read_close s.engine =
      (Except.ok (), (g2, s.engine.2 ++ [EngOp.op_read_close])) := by
    simp [traced, hc]
  rcases hf : E.archive_read_free g2 with ⟨rf, g3⟩
  have htf : (traced E).archive_read_free (g2, s.engine.2 ++ [EngOp.op_read_close]) =
      (rf, (g3, (s.engine.2 ++ [EngOp.op_read_close]) ++ [EngOp.op_read_free])) := by
    simp [traced, hf]
  cases rf <;> simp [free, hcl, htc, htf]

/-- Claim C6: when any construction step of from_read fails (filters,
formats, seek callback, null-session check, open), from_read returns that
error, and before returning it the drop of the already-built local
iterator value releases the partial native state: instrumenting the engine
with a ghost call trace, the trace at the moment the error is returned
ends with the stream-close and session-free operations (provided the
engine's close call itself succeeds, libarchive's normal behaviour). -/
theorem c6_construction_cleanup {σ : Type} (E : Engine σ) (g0 : σ)
    (hclose : ∀ g : σ, (E.archive_read_close g).1 = Except.ok ()) (e : Error)
    (hfail : (from_read (traced E) (g0, ([] : List EngOp))).1 = Except.error e) :
    ∃ t : List EngOp,
      (from_read (traced E) (g0, ([] : List EngOp))).2.2 =
        t ++ [EngOp.op_read_close, EngOp.op_read_free] := by
  rcases hnew : (traced E).archive_read_new (g0, ([] : List EngOp)) with ⟨isNull, g1⟩
  rcases hcon : construct (traced E) isNull g1 with ⟨r, g2⟩
  cases r with
  | ok u =>
    rw [from_read] at hfail
    rw [hnew] at hfail
    simp only [hcon] at hfail
    exact Except.noConfusion hfail
  | error e' =>
    refine ⟨g2.2, ?_⟩
    rw [from_read, hnew]
    simp only [hcon]
    exact traced_free_trace E
      { in_file := false, closed := false, error := false, engine := g2 } rfl (hclose g2.1)

theorem c6_construction_cleanup_witness :
    ∃ t : List EngOp,
      (from_read (traced egOpenFail) (0, ([] : List EngOp))).2.2 =
        t ++ [EngOp.op_read_close, EngOp.op_read_free] :=
  c6_construction_cleanup egOpenFail 0 (fun g => rfl) (Error.Engine ("open failed")) rfl

theorem iterChunks_eq_engineBlocks {σ : Type} (E : Engine σ) (n : Nat) :
    ∀ s : IterState σ, s.in_file = true → s.error = false →
      iterChunks E s n = engineBlocks E s.engine n := by
  induction n with
  | zero =>
    intro s h1 h2
    rfl
  | succ n ih =>
    intro s h1 h2
    rcases hd : E.archive_read_data_block s.engine with ⟨dr, g'⟩
    cases dr with
    | eof =>
      have hout : nextOut E s = some ArchiveContents.EndOfEntry := by
        simp [nextOut, next, h1, h2, next_data_chunk, hd]
      simp [iterChunks, engineBlocks, hd, hout]
    | ok v =>
      have hnext : next E s = (some (ArchiveContents.DataChunk v), { s with engine := g' }) := by
        simp [next, h1, h2, next_data_chunk, hd, write_all]
      have hout : nextOut E s = some (ArchiveContents.DataChunk v) := by
        rw [nextOut, hnext]
      have hst : nextState E s = { s with engine := g' } := by
        rw [nextState, hnext]
      simp only [iterChunks, engineBlocks, hd, hout, hst]
      rw [ih { s with engine := g' } h1 h2]
    | err e =>
      have hout : nextOut E s = some (ArchiveContents.Err e) := by
        simp [nextOut, next, h1, h2, next_data_chunk, hd]
      simp [iterChunks, engineBlocks, hd, hout]

/-- Claim C7: each DataChunk event carries exactly the block the engine
reported (copied via write_all into fresh caller-owned storage), so the
sequence of chunk payloads emitted from inside an entry equals the
sequence of blocks the engine hands over, and concatenating the payloads
reproduces the entry's decoded content byte for byte. -/
theorem c7_chunk_concat {σ : Type} (E : Engine σ) (n : Nat) (s : IterState σ)
    (h1 : s.in_file = true) (h2 : s.error = false) :
    iterChunks E s n = engineBlocks E s.engine n ∧
    (iterChunks E s n).flatten = (engineBlocks E s.engine n).flatten := by
  have h := iterChunks_eq_engineBlocks E n s h1 h2
  exact ⟨h, by rw [h]⟩

theorem c7_chunk_concat_witness :
    iterChunks egData egInEntry 5 = engineBlocks egData egInEntry.engine 5 ∧
    (iterChunks egData egInEntry 5).flatten = (engineBlocks egData egInEntry.engine 5).flatten :=
  c7_chunk_concat egData 5 egInEntry rfl rfl

/-- Claim C8 counterexample: the claim promises that every read failure is
recorded via archive_set_error and answered with the sentinel -1, but on a
caller-supplied reader whose failure message carries an interior NUL byte
the source's CString::new(rendered message).unwrap() panics before either
happens: the callback's result is the panic (none in the model), and in
particular it is not the -1-with-recorded-error outcome the claim
requires. -/
theorem c8_counterexample :
    libarchive_heap_seekableread_callback egNulReader egPipe = none ∧
    libarchive_heap_seekableread_callback egNulReader egPipe ≠
      some (-1, { egPipe with reader := 1 }, some (9, "a\x00b")) := by
  constructor
  · rfl
  · decide

/-- Claim C8 (amended): the read callback returns the number of bytes it
placed at the front of the pipe's buffer (zero signalling end of source);
on a read failure whose rendered message is free of interior NUL bytes it
records a descriptive error — the message, with the OS error code where
available and 0 otherwise — on the engine's error channel through
archive_set_error and returns the sentinel -1 without the failure crossing
the callback boundary; but on a read failure whose rendered message
contains an interior NUL byte, CString::new(...).unwrap() panics instead,
so neither the recording nor the -1 return happens. -/
theorem c8_read_callback {ρ : Type} (R : Reader ρ) (p : HeapReadSeekerPipe ρ) :
    (∀ bytes r', R.read p.reader READER_BUFFER_SIZE = (Except.ok bytes, r') →
      libarchive_heap_seekableread_callback R p =
        some (((bytes.length : Nat) : Int),
          { reader := r', buffer := bytes ++ p.buffer.drop bytes.length }, none) ∧
      (bytes ++ p.buffer.drop bytes.length).take bytes.length = bytes) ∧
    (∀ e r', R.read p.reader READER_BUFFER_SIZE = (Except.error e, r') →
      cstring_new e.message = some e.message →
      libarchive_heap_seekableread_callback R p =
        some (-1, { p with reader := r' }, some (e.raw_os_error.getD 0, e.message))) ∧
    (∀ e r', R.read p.reader READER_BUFFER_SIZE = (Except.error e, r') →
      cstring_new e.message = none →
      libarchive_heap_seekableread_callback R p = none) := by
  refine ⟨?_, ?_, ?_⟩
  · intro bytes r' hread
    constructor
    · simp [libarchive_heap_seekableread_callback, hread]
    · exact List.take_left _ _
  · intro e r' hread hnul
    simp [libarchive_heap_seekableread_callback, hread, hnul]
  · intro e r' hread hnul
    simp [libarchive_heap_seekableread_callback, hread, hnul]

theorem c8_read_callback_witness :
    (libarchive_heap_seekableread_callback egReader egPipe =
      some ((([7, 8] : List Nat).length : Int),
        { reader := 1, buffer := [7, 8] ++ egPipe.buffer.drop ([7, 8] : List Nat).length },
        none) ∧
      (([7, 8] : List Nat) ++ egPipe.buffer.drop ([7, 8] : List Nat).length).take
        ([7, 8] : List Nat).length = [7, 8]) :=
  (c8_read_callback egReader egPipe).1 [7, 8] 1 rfl

/-- Claim C9: the seek callback maps whence codes 0, 1 and 2 to seeking
from the start (offset cast to u64), the current position and the end of
the source, returning the resulting position cast to a signed 64-bit
value on success; any other whence code returns the sentinel -1 without
touching the source, and a failing seek also returns -1. -/
theorem c9_seek_callback {ρ : Type} (R : Reader ρ) (p : HeapReadSeekerPipe ρ) (offset : Int) :
    (∀ whence : Int, whence ≠ 0 → whence ≠ 1 → whence ≠ 2 →
      libarchive_heap_seek_callback R p offset whence = (-1, p)) ∧
    (∀ pos r', R.seek p.reader (SeekFrom.Start (toU64 offset)) = (Except.ok pos, r') →
      libarchive_heap_seek_callback R p offset 0 = (toI64 pos, { p with reader := r' })) ∧
    (∀ pos r', R.seek p.reader (SeekFrom.Current offset) = (Except.ok pos, r') →
      libarchive_heap_seek_callback R p offset 1 = (toI64 pos, { p with reader := r' })) ∧
    (∀ pos r', R.seek p.reader (SeekFrom.SeekEnd offset) = (Except.ok pos, r') →
      libarchive_heap_seek_callback R p offset 2 = (toI64 pos, { p with reader := r' })) ∧
    (∀ (sf : SeekFrom) (e : IOError) r', R.seek p.reader sf = (Except.error e, r') →
      ∀ whence : Int,
        (if whence = 0 then some (SeekFrom.Start (toU64 offset))
         else if whence = 1 then some (SeekFrom.Current offset)
         else if whence = 2 then some (SeekFrom.SeekEnd offset)
         else none) = some sf →
        libarchive_heap_seek_callback R p offset whence = (-1, { p with reader := r' })) := by
  refine ⟨?_, ?_, ?_, ?_, ?_⟩
  · intro whence h0 h1 h2
    simp [libarchive_heap_seek_callback, h0, h1, h2]
  · intro pos r' hseek
    simp [libarchive_heap_seek_callback, hseek]
  · intro pos r' hseek
    simp [libarchive_heap_seek_callback, hseek]
  · intro pos r' hseek
    simp [libarchive_heap_seek_callback, hseek]
  · intro sf e r' hseek whence hmap
    simp [libarchive_heap_seek_callback, hmap, hseek]

theorem c9_seek_callback_witness :
    libarchive_heap_seek_callback egReader egPipe 3 0 =
      (toI64 3, { egPipe with reader := 1 }) :=
  (c9_seek_callback egReader egPipe 3).2.1 3 1 rfl

/-- Claim C10: next() never mutates the closed flag; of the three control
booleans it mutates only in_file (set when StartOfEntry is emitted,
cleared when an EndOfEntry is emitted while in_file) and error (set when
Err is emitted); and when next() returns None with the error flag clear
(the end-of-archive case in the header state), all three booleans are left
unchanged, so the following call queries the engine again instead of a
latched flag. -/
theorem c10_next_frame {σ : Type} (E : Engine σ) (s : IterState σ) :
    (next E s).2.closed = s.closed ∧
    (∀ name, (next E s).1 = some (ArchiveContents.StartOfEntry name) →
      (next E s).2.in_file = true ∧ (next E s).2.error = s.error) ∧
    ((next E s).1 = some ArchiveContents.EndOfEntry →
      s.in_file = true ∧ (next E s).2.in_file = false ∧ (next E s).2.error = s.error) ∧
    (∀ v, (next E s).1 = some (ArchiveContents.DataChunk v) →
      (next E s).2.in_file = s.in_file ∧ (next E s).2.error = s.error) ∧
    (∀ e, (next E s).1 = some (ArchiveContents.Err e) →
      (next E s).2.error = true ∧ (next E s).2.in_file = s.in_file) ∧
    ((next E s).1 = none → s.error = false →
      (next E s).2.in_file = s.in_file ∧ (next E s).2.error = false ∧
      (next E s).2.closed = s.closed) := by
  by_cases he : s.error
  · simp [next_of_error E s he, he]
  · simp only [Bool.not_eq_true] at he
    by_cases hin : s.in_file
    · rcases hr : next_data_chunk E s.engine with ⟨ev, g'⟩
      cases ev <;> simp [next, he, hin, hr]
    · simp only [Bool.not_eq_true] at hin
      rcases hr : next_header E s.engine with ⟨ev, g'⟩
      cases ev <;> simp [next, he, hin, hr]

theorem c10_next_frame_witness :
    (next (baseEngine (σ := Nat)) egIter0).2.in_file = egIter0.in_file ∧
    (next (baseEngine (σ := Nat)) egIter0).2.error = false ∧
    (next (baseEngine (σ := Nat)) egIter0).2.closed = egIter0.closed :=
  (c10_next_frame baseEngine egIter0).2.2.2.2.2 rfl rfl
